import Mathlib

/-!
Verification of the HAR-minimizing transform in `src/main.py` (HarPromter).

The Python source is shallowly embedded: every function of the source that the
claims touch is translated to an executable Lean definition of the same name
(snake_case preserved).  Python exceptions are modelled with `Except PyErr`;
a raised exception is an `Except.error` carrying the kind of the exception.
Python `str` is modelled by `String`, single-key dicts `{name: value}` by
pairs `String × String`, JSON-ish optional keys by `Option`.
-/

set_option maxRecDepth 16384

namespace Har

/-- Kinds of Python exceptions that the embedded code can raise.  `binasciiError`
and `unicodeDecodeError` only occur inside `decode_data`, where the source
catches them; the others propagate out of `filter_entries`. -/
inductive PyErr where
  | keyError
  | indexError
  | attributeError
  | valueError
  | binasciiError
  | unicodeDecodeError
deriving Repr, DecidableEq

deriving instance DecidableEq for Except

/-- Characters treated as whitespace by Python's `str.strip()` (ASCII range;
header and multipart data in HAR files is ASCII-framed). -/
def py_is_space (c : Char) : Bool :=
  c = ' ' || c = '\t' || c = '\n' || c = '\r' || c = '\x0b' || c = '\x0c'

/-- Python `s.strip()`: remove leading and trailing whitespace. -/
def py_strip (s : String) : String :=
  String.mk (((s.toList.dropWhile py_is_space).reverse.dropWhile py_is_space).reverse)

/-- Python `s.lower()` (ASCII case folding; header names are ASCII). -/
def py_lower (s : String) : String :=
  String.mk (s.toList.map Char.toLower)

/-- Scanner for Python `s.split(sep)` with a nonempty separator:
non-overlapping matches, left to right, empty pieces kept.  The fuel argument
(initially the length of the text) only makes the recursion structural; each
step consumes at least one character, so it is never exhausted. -/
def split_on_go (sep : List Char) : Nat → List Char → List Char → List (List Char)
  | 0, l, cur => [cur.reverse ++ l]
  | _ + 1, [], cur => [cur.reverse]
  | fuel + 1, c :: rest, cur =>
    if sep.isPrefixOf (c :: rest) then
      cur.reverse :: split_on_go sep fuel (List.drop sep.length (c :: rest)) []
    else split_on_go sep fuel rest (c :: cur)

/-- Python `s.split(sep)` for a nonempty separator. -/
def py_split (s sep : String) : List String :=
  (split_on_go sep.toList s.toList.length s.toList []).map String.mk

/-- Python `needle in hay` for a nonempty needle: true iff `hay.split(needle)`
has more than one piece. -/
def py_contains (hay needle : String) : Bool :=
  (py_split hay needle).length != 1

/-- Python `s.endswith(suffix)`. -/
def py_ends_with (s suffix : String) : Bool :=
  suffix.toList.isSuffixOf s.toList

/-- Python `s[:-1]`: all but the last character (the empty string stays empty). -/
def py_drop_last (s : String) : String :=
  String.mk (s.toList.take (s.toList.length - 1))

/-- Python `collections.Counter` occurrence count of one key (equality on the
`(name, value)` tuple). -/
def py_count (l : List (String × String)) (p : String × String) : Nat :=
  (l.filter (fun x => x = p)).length

/-- Keys of a Python `Counter`/`dict` in insertion order: first occurrence of
each element, in order of first appearance. -/
def py_first_seen (l : List (String × String)) : List (String × String) :=
  l.foldl (fun acc x => if x ∈ acc then acc else acc ++ [x]) []

/-- Python `enumerate(l, start)` as an explicit list of `(index, element)`. -/
def enum_from {α : Type} : Nat → List α → List (Nat × α)
  | _, [] => []
  | i, a :: l => (i, a) :: enum_from (i + 1) l

/-- Monadic map over `Except PyErr`, stopping at the first raised exception
(a Python `for` loop whose body can raise). -/
def mapME {α β : Type} (f : α → Except PyErr β) : List α → Except PyErr (List β)
  | [] => .ok []
  | a :: l => do
    let b ← f a
    let r ← mapME f l
    .ok (b :: r)

/-! UTF-8 encoding and decoding, as used by Python `bytes.decode('utf-8')`
(strict) and by `urllib.parse.unquote` (errors='replace'). Bytes are `Nat`s
below 256. -/

/-- UTF-8 encoding of one code point. -/
def utf8_encode_char (c : Char) : List Nat :=
  let n := c.toNat
  if n < 0x80 then [n]
  else if n < 0x800 then [0xC0 + n / 64, 0x80 + n % 64]
  else if n < 0x10000 then [0xE0 + n / 4096, 0x80 + n / 64 % 64, 0x80 + n % 64]
  else [0xF0 + n / 262144, 0x80 + n / 4096 % 64, 0x80 + n / 64 % 64, 0x80 + n % 64]

/-- UTF-8 encoding of a string, as Python `s.encode('utf-8')`. -/
def utf8_encode (s : String) : List Nat :=
  s.toList.flatMap utf8_encode_char

/-- Is the byte a UTF-8 continuation byte (`0x80`–`0xBF`)? -/
def is_cont (b : Nat) : Bool := 0x80 ≤ b && b < 0xC0

/-- Strict UTF-8 decoding, as Python `bytes.decode('utf-8')`: rejects invalid
lead bytes, truncated sequences, overlong forms, surrogates and code points
above `0x10FFFF` by raising `UnicodeDecodeError`. -/
def utf8_decode_strict : List Nat → Except PyErr (List Char)
  | [] => .ok []
  | b :: rest =>
    if b < 0x80 then do
      let cs ← utf8_decode_strict rest
      .ok (Char.ofNat b :: cs)
    else if b < 0xC2 then .error .unicodeDecodeError
    else if b < 0xE0 then
      match rest with
      | c1 :: rest2 =>
        if is_cont c1 then do
          let cs ← utf8_decode_strict rest2
          .ok (Char.ofNat ((b - 0xC0) * 64 + (c1 - 0x80)) :: cs)
        else .error .unicodeDecodeError
      | [] => .error .unicodeDecodeError
    else if b < 0xF0 then
      match rest with
      | c1 :: c2 :: rest2 =>
        if is_cont c1 && is_cont c2 then
          let n := (b - 0xE0) * 4096 + (c1 - 0x80) * 64 + (c2 - 0x80)
          if n < 0x800 || (0xD800 ≤ n && n < 0xE000) then .error .unicodeDecodeError
          else do
            let cs ← utf8_decode_strict rest2
            .ok (Char.ofNat n :: cs)
        else .error .unicodeDecodeError
      | _ => .error .unicodeDecodeError
    else if b < 0xF5 then
      match rest with
      | c1 :: c2 :: c3 :: rest2 =>
        if is_cont c1 && is_cont c2 && is_cont c3 then
          let n := (b - 0xF0) * 262144 + (c1 - 0x80) * 4096 + (c2 - 0x80) * 64 + (c3 - 0x80)
          if n < 0x10000 || 0x110000 ≤ n then .error .unicodeDecodeError
          else do
            let cs ← utf8_decode_strict rest2
            .ok (Char.ofNat n :: cs)
        else .error .unicodeDecodeError
      | _ => .error .unicodeDecodeError
    else .error .unicodeDecodeError

/-- UTF-8 decoding with errors='replace', as used inside `urllib.parse.unquote`:
a malformed lead byte or truncated/invalid sequence yields U+FFFD and decoding
continues after the offending lead byte.  The fuel argument (initially the
length of the input) only makes the recursion structural; each step consumes at
least one byte, so it is never exhausted. -/
def utf8_replace_go : Nat → List Nat → List Char
  | 0, _ => []
  | _ + 1, [] => []
  | fuel + 1, b :: rest =>
    if b < 0x80 then Char.ofNat b :: utf8_replace_go fuel rest
    else if b < 0xC2 then '�' :: utf8_replace_go fuel rest
    else if b < 0xE0 then
      match rest with
      | c1 :: rest2 =>
        if is_cont c1 then Char.ofNat ((b - 0xC0) * 64 + (c1 - 0x80)) :: utf8_replace_go fuel rest2
        else '�' :: utf8_replace_go fuel rest
      | [] => ['�']
    else if b < 0xF0 then
      match rest with
      | c1 :: c2 :: rest2 =>
        if is_cont c1 && is_cont c2 then
          let n := (b - 0xE0) * 4096 + (c1 - 0x80) * 64 + (c2 - 0x80)
          if n < 0x800 || (0xD800 ≤ n && n < 0xE000) then '�' :: utf8_replace_go fuel rest
          else Char.ofNat n :: utf8_replace_go fuel rest2
        else '�' :: utf8_replace_go fuel rest
      | _ => '�' :: utf8_replace_go fuel rest
    else if b < 0xF5 then
      match rest with
      | c1 :: c2 :: c3 :: rest2 =>
        if is_cont c1 && is_cont c2 && is_cont c3 then
          let n := (b - 0xF0) * 262144 + (c1 - 0x80) * 4096 + (c2 - 0x80) * 64 + (c3 - 0x80)
          if n < 0x10000 || 0x110000 ≤ n then '�' :: utf8_replace_go fuel rest
          else Char.ofNat n :: utf8_replace_go fuel rest2
        else '�' :: utf8_replace_go fuel rest
      | _ => '�' :: utf8_replace_go fuel rest
    else '�' :: utf8_replace_go fuel rest

/-- UTF-8 decoding with errors='replace'. -/
def utf8_decode_replace (l : List Nat) : List Char :=
  utf8_replace_go l.length l

/-! Base64, as used by Python `base64.b64decode` on a `str` argument
(standard alphabet, non-strict mode: characters outside the alphabet are
discarded; incorrect padding raises `binascii.Error`; non-ASCII input raises
`ValueError` when the `str` is encoded to ASCII bytes first). -/

/-- Index of a character in the standard base64 alphabet (code points 65–90
are `A`–`Z`, 97–122 are `a`–`z`, 48–57 are the digits, 43 is `+`, 47 is `/`). -/
def b64_index (c : Char) : Option Nat :=
  let n := c.toNat
  if 65 ≤ n ∧ n ≤ 90 then some (n - 65)
  else if 97 ≤ n ∧ n ≤ 122 then some (n - 71)
  else if 48 ≤ n ∧ n ≤ 57 then some (n + 4)
  else if n = 43 then some 62
  else if n = 47 then some 63
  else none

/-- Emit the bytes of one complete base64 quad. -/
def b64_emit_quad (a b c d : Nat) : List Nat :=
  [a * 4 + b / 16, b % 16 * 16 + c / 4, c % 4 * 64 + d]

/-- Emit the bytes of a padded final group (2 or 3 data characters). -/
def b64_emit_leftover : List Nat → List Nat
  | [a, b] => [a * 4 + b / 16]
  | [a, b, c] => [a * 4 + b / 16, b % 16 * 16 + c / 4]
  | _ => []

/-- Core loop of CPython's `binascii.a2b_base64` in non-strict mode: `buf` holds
the 6-bit values of the current quad, `pads` the number of padding characters
seen since the last data character.  A pad completing a group of two or three
data characters ends decoding (the rest of the input is ignored); leftover data
characters at the end raise `binascii.Error` (invalid padding / invalid length). -/
def b64_go : List Nat → Nat → List Char → Except PyErr (List Nat)
  | buf, _, [] =>
    match buf with
    | [] => .ok []
    | _ => .error .binasciiError
  | buf, pads, c :: rest =>
    if c = '=' then
      if buf.length ≥ 2 && buf.length + (pads + 1) ≥ 4 then
        .ok (b64_emit_leftover buf)
      else b64_go buf (pads + 1) rest
    else
      match b64_index c with
      | some v =>
        match buf with
        | [a, b, c'] => do
          let out ← b64_go [] 0 rest
          .ok (b64_emit_quad a b c' v ++ out)
        | _ => b64_go (buf ++ [v]) 0 rest
      | none => b64_go buf pads rest

/-- Python `base64.b64decode(data)` for a `str` argument: encode to ASCII
(raising `ValueError` on non-ASCII), then decode in non-strict mode. -/
def b64decode (data : String) : Except PyErr (List Nat) :=
  if data.toList.any (fun c => c.toNat ≥ 128) then .error .valueError
  else b64_go [] 0 data.toList

/-- Python `base64.b64encode` over raw bytes, rendered as an ASCII string
(used only to state the base64 round-trip scenario). -/
def b64encode : List Nat → String
  | [] => ""
  | [a] =>
    String.mk [b64_alpha (a / 4), b64_alpha (a % 4 * 16)] ++ "=="
  | [a, b] =>
    String.mk [b64_alpha (a / 4), b64_alpha (a % 4 * 16 + b / 16), b64_alpha (b % 16 * 4)] ++ "="
  | a :: b :: c :: rest =>
    String.mk [b64_alpha (a / 4), b64_alpha (a % 4 * 16 + b / 16),
               b64_alpha (b % 16 * 4 + c / 64), b64_alpha (c % 64)] ++ b64encode rest
where
  /-- Character of the standard base64 alphabet at a 6-bit index. -/
  b64_alpha (n : Nat) : Char :=
    if n < 26 then Char.ofNat ('A'.toNat + n)
    else if n < 52 then Char.ofNat ('a'.toNat + n - 26)
    else if n < 62 then Char.ofNat ('0'.toNat + n - 52)
    else if n = 62 then '+'
    else '/'

/-! `urllib.parse.unquote`: percent-decoding.  Maximal runs of `%XX` escapes
are collected as bytes and UTF-8-decoded with errors='replace'; a `%` not
followed by two hex digits is kept literally. -/

/-- Value of one hex digit, if any (code points 48–57 are the digits, 97–102
are `a`–`f`, 65–70 are `A`–`F`). -/
def hex_val (c : Char) : Option Nat :=
  let n := c.toNat
  if 48 ≤ n ∧ n ≤ 57 then some (n - 48)
  else if 97 ≤ n ∧ n ≤ 102 then some (n - 87)
  else if 65 ≤ n ∧ n ≤ 70 then some (n - 55)
  else none

/-- Scanner for `unquote`: `pend` is the byte run of `%XX` escapes collected so
far, flushed through replace-mode UTF-8 decoding when the run ends.  The fuel
argument (initially the length of the text) only makes the recursion
structural; each step consumes at least one character. -/
def unquote_go : Nat → List Nat → List Char → List Char
  | 0, pend, _ => utf8_decode_replace pend
  | _ + 1, pend, [] => utf8_decode_replace pend
  | fuel + 1, pend, c :: rest =>
    if c = '%' then
      match rest with
      | a :: b :: rest2 =>
        match hex_val a, hex_val b with
        | some x, some y => unquote_go fuel (pend ++ [16 * x + y]) rest2
        | _, _ => utf8_decode_replace pend ++ c :: unquote_go fuel [] rest
      | _ => utf8_decode_replace pend ++ c :: unquote_go fuel [] rest
    else utf8_decode_replace pend ++ c :: unquote_go fuel [] rest

/-- Python `urllib.parse.unquote` (UTF-8, errors='replace'; `+` is untouched). -/
def unquote (s : String) : String :=
  String.mk (unquote_go s.toList.length [] s.toList)

/-- The base64-then-UTF-8 attempt inside `decode_data`
(`base64.b64decode(data).decode('utf-8')`). -/
def b64_then_utf8 (data : String) : Except PyErr String := do
  let bs ← b64decode data
  let cs ← utf8_decode_strict bs
  .ok (String.mk cs)

/-- `decode_data` from `src/main.py`: try base64 decode then UTF-8 decode;
on `binascii.Error`, `UnicodeDecodeError` or `ValueError` fall back to
URL-unescaping the raw text. -/
def decode_data (data : String) : String :=
  match b64_then_utf8 data with
  | .ok s => s
  | .error _ => unquote data

/-! `remove_query_params` from `src/main.py`:
`urlunparse(urlparse(url)._replace(query=""))`.  The composition strips
WHATWG-unsafe characters as `urlsplit` does (leading/trailing C0 controls and
spaces, then every tab/CR/LF), lowercases a well-formed scheme, removes the
query part (everything from the first `?` outside the fragment) and keeps a
nonempty fragment; the `params`/`netloc` components are split and rejoined
unchanged by the round trip, so they need no separate treatment. -/

/-- Valid characters of a URL scheme after the first (letters, digits, `+`,
`-`, `.`). -/
def is_scheme_char (c : Char) : Bool :=
  c.isAlpha || c.isDigit || c = '+' || c = '-' || c = '.'

/-- Split a character list at the first occurrence of a separator, if present. -/
def split_first (sep : Char) : List Char → Option (List Char × List Char)
  | [] => none
  | c :: rest =>
    if c = sep then some ([], rest)
    else (split_first sep rest).map (fun pr => (c :: pr.1, pr.2))

/-- C0-control-or-space test used by `urlsplit`'s WHATWG stripping. -/
def is_c0_or_space (c : Char) : Bool := c.toNat ≤ 0x20

/-- `remove_query_params` from `src/main.py`. -/
def remove_query_params (url : String) : String :=
  let cs := (url.toList.dropWhile is_c0_or_space).reverse.dropWhile is_c0_or_space |>.reverse
  let cs := cs.filter (fun c => !(c = '\t' || c = '\r' || c = '\n'))
  let (scheme, rest) :=
    match split_first ':' cs with
    | some (pre, post) =>
      match pre with
      | [] => ([], cs)
      | c0 :: _ =>
        if c0.isAlpha && pre.all is_scheme_char then (pre.map Char.toLower ++ [':'], post)
        else ([], cs)
    | none => ([], cs)
  let (body, frag) :=
    match split_first '#' rest with
    | some (pre, post) => (pre, post)
    | none => (rest, [])
  let body :=
    match split_first '?' body with
    | some (pre, _) => pre
    | none => body
  String.mk (scheme ++ body ++ (if frag = [] then [] else '#' :: frag))

/-- The fixed static-asset extension list of `filter_entries`. -/
def static_values : List String :=
  [".css", ".js", ".png", ".svg", ".jpg", ".jpeg", ".gif", ".woff", ".woff2", ".ttf"]

/-- The static-exclusion test of `filter_entries`:
`any(clean_url.endswith(ext) for ext in static_values)` on the
query-stripped URL. -/
def matches_static_url (url : String) : Bool :=
  static_values.any (fun ext => py_ends_with (remove_query_params url) ext)

/-- `parse_multipart` from `src/main.py`.  The body is split on
`--{boundary}`; segments are stripped, and empty segments and the bare `--`
left by the final delimiter are dropped.  For each kept segment the name is
`part.split(CRLFCRLF)[0].split(NAME_MARK)[1][:-1]` — an `IndexError` is raised
when the first block has no `NAME_MARK` occurrence — and the value is
`part.split(CRLFCRLF)[1]` when that split has exactly two pieces, else `None`. -/
def parse_multipart (data boundary : String) : Except PyErr (List (String × Option String)) :=
  let parts := (py_split data ("--" ++ boundary)).map py_strip
  let parts := parts.filter (fun p => p ≠ "" && p ≠ "--")
  mapME (fun part =>
    let blocks := py_split part "\r\n\r\n"
    let first := blocks.headD ""
    match (py_split first "; name=\"").get? 1 with
    | none => .error .indexError
    | some nm =>
      let value : Option String :=
        match blocks with
        | [_, v] => some v
        | _ => none
      Except.ok (py_drop_last nm, value)) parts

/-- The standard header names dropped by `convert_headers` when
`exclude_standard_headers` is set. -/
def standard_headers : List String :=
  ["host", "content-length", "content-type", "user-agent", "accept", "connection"]

/-- One `{name, value}` record of a HAR `headers`/`cookies`/`queryString`
list. -/
structure NameValue where
  name : String
  value : String
deriving Repr, DecidableEq

/-- `convert_headers` from `src/main.py`: drop `Cookie` (case-insensitively),
optionally drop standard headers, and rewrite each survivor as a single-key
`{name: value}` dictionary (modelled as a pair). -/
def convert_headers (headers : List NameValue) (exclude_standard_headers : Bool) :
    List (String × String) :=
  (headers.filter (fun h =>
    py_lower h.name ≠ "cookie" &&
      (!exclude_standard_headers || !(standard_headers.contains (py_lower h.name))))).map
    (fun h => (h.name, h.value))

/-! Data model of a HAR entry, restricted to the fields `filter_entries` and
the deduplicator inspect or rewrite.  Optional JSON keys are `Option`; fields
the transform only copies verbatim (`method`, `status`, `redirectURL`, …) are
not tracked, as no claim concerns them. -/

/-- A source `postData` object (`mimeType` and `text` keys, both optional). -/
structure PostData where
  mimeType : Option String
  text : Option String
deriving Repr, DecidableEq

/-- A source response `content` object (`text` key optional). -/
structure Content where
  text : Option String
deriving Repr, DecidableEq

/-- A source HAR request. -/
structure Request where
  url : String
  cookies : Option (List NameValue)
  headers : Option (List NameValue)
  queryString : Option (List NameValue)
  postData : Option PostData
deriving Repr, DecidableEq

/-- A source HAR response. -/
structure Response where
  cookies : Option (List NameValue)
  headers : Option (List NameValue)
  content : Option Content
deriving Repr, DecidableEq

/-- A source HAR entry (`comment` optional). -/
structure Entry where
  request : Request
  response : Response
  comment : Option String
deriving Repr, DecidableEq

/-- The rewritten `postData` of a filtered entry: a list of multipart
`{name: value}` parts, or a decoded text body. -/
inductive PostOut where
  | multi (parts : List (String × Option String))
  | text (s : String)
deriving Repr, DecidableEq

/-- A filtered request, as produced by `filter_entries`: header/cookie lists
are lists of single-key `{name: value}` dictionaries. -/
structure FRequest where
  url : String
  cookies : Option (List (String × String))
  headers : Option (List (String × String))
  queryString : Option (List (String × String))
  postData : Option PostOut
deriving Repr, DecidableEq

/-- A filtered response. -/
structure FResponse where
  cookies : Option (List (String × String))
  headers : Option (List (String × String))
  content : Option String
deriving Repr, DecidableEq

/-- A filtered entry. -/
structure FEntry where
  request : FRequest
  response : FResponse
  comment : String
deriving Repr, DecidableEq

/-- An element of a header/cookie list after reference substitution: either a
literal single-key `{name: value}` dictionary or an integer reference into the
corresponding lookup table. -/
inductive HCElem where
  | inline (name value : String)
  | ref (id : Nat)
deriving Repr, DecidableEq

/-- A request after reference substitution. -/
structure MRequest where
  url : String
  cookies : Option (List HCElem)
  headers : Option (List HCElem)
  queryString : Option (List (String × String))
  postData : Option PostOut
deriving Repr, DecidableEq

/-- A response after reference substitution. -/
structure MResponse where
  cookies : Option (List HCElem)
  headers : Option (List HCElem)
  content : Option String
deriving Repr, DecidableEq

/-- An entry after reference substitution. -/
structure MEntry where
  request : MRequest
  response : MResponse
  comment : String
deriving Repr, DecidableEq

/-- Selector for the two deduplicated keys. -/
inductive HCKey where
  | headers
  | cookies
deriving Repr, DecidableEq

/-- The cookie rewriting of `filter_entries` for one side:
`if 'cookies' in side and not exclude_cookies: rewrite ... else: del
side['cookies']` — the `del` raises `KeyError` when the source side has no
`cookies` key. -/
def cookies_step (cs : Option (List NameValue)) (exclude_cookies : Bool) :
    Except PyErr (Option (List (String × String))) :=
  match cs, exclude_cookies with
  | some l, false => .ok (some (l.map (fun c => (c.name, c.value))))
  | some _, true => .ok none
  | none, _ => .error .keyError

/-- The `postData` handling of `filter_entries`: multipart bodies are parsed
with the boundary taken from the first `Content-Type` request header
(`request['headers']` raises `KeyError` when absent, the `[0]` on an empty
filtered header list and the `[1]` on a boundary-less split raise
`IndexError`); other bodies go through `decode_data`. -/
def post_data_step (request : Request) : Except PyErr (Option PostOut) :=
  match request.postData with
  | none => .ok none
  | some pd =>
    match pd.mimeType with
    | some m =>
      if py_contains m "multipart" then do
        let hs ← match request.headers with
          | some hs => .ok hs
          | none => .error PyErr.keyError
        let bh ← match hs.filter (fun h => py_lower h.name = "content-type") with
          | [] => .error PyErr.indexError
          | h :: _ => .ok h
        let boundary ← match (py_split bh.value "boundary=").get? 1 with
          | some b => .ok b
          | none => .error PyErr.indexError
        let parts ← parse_multipart (pd.text.getD "") boundary
        .ok (some (.multi parts))
      else .ok (some (.text (decode_data (pd.text.getD ""))))
    | none => .ok (some (.text (decode_data (pd.text.getD ""))))

/-- The body of the `filter_entries` loop for one entry: `.ok none` models
`continue` (entry skipped by the static filter), `.error` a raised exception. -/
def filter_entry (entry : Entry) (exclude_static exclude_cookies exclude_standard_headers : Bool) :
    Except PyErr (Option FEntry) :=
  if exclude_static && matches_static_url entry.request.url then .ok none
  else do
    let reqCookies ← cookies_step entry.request.cookies exclude_cookies
    let respCookies ← cookies_step entry.response.cookies exclude_cookies
    let post ← post_data_step entry.request
    .ok (some
      { request :=
          { url := entry.request.url
            cookies := reqCookies
            headers := entry.request.headers.map (fun hs => convert_headers hs exclude_standard_headers)
            queryString := entry.request.queryString.map
              (fun qs => qs.map (fun item => (item.name, unquote item.value)))
            postData := post }
        response :=
          { cookies := respCookies
            headers := entry.response.headers.map (fun hs => convert_headers hs exclude_standard_headers)
            content := entry.response.content.map (fun c => decode_data (c.text.getD "")) }
        comment := entry.comment.getD "" })

/-- The `filter_entries` loop, carrying the running `enumerate` index: the
resulting association list is the Python dict `filtered_entries` keyed by the
original HAR index, in insertion order. -/
def filter_entries_go (es ec eh : Bool) : Nat → List Entry → Except PyErr (List (Nat × FEntry))
  | _, [] => .ok []
  | i, e :: rest => do
    match ← filter_entry e es ec eh with
    | none => filter_entries_go es ec eh (i + 1) rest
    | some fe => do
      let r ← filter_entries_go es ec eh (i + 1) rest
      .ok ((i, fe) :: r)

/-- `filter_entries` from `src/main.py`. -/
def filter_entries (entries : List Entry) (exclude_static exclude_cookies exclude_standard_headers : Bool) :
    Except PyErr (List (Nat × FEntry)) :=
  filter_entries_go exclude_static exclude_cookies exclude_standard_headers 0 entries

/-- The two header/cookie lists of a filtered entry under one key:
`entry['request'].get(key, []) + entry['response'].get(key, [])`. -/
def side_pairs (fe : FEntry) (key : HCKey) : List (String × String) :=
  (match key with
   | .headers => fe.request.headers
   | .cookies => fe.request.cookies).getD []
  ++ (match key with
      | .headers => fe.response.headers
      | .cookies => fe.response.cookies).getD []

/-- The occurrence stream fed to the `Counter` in `create_dict`: all pairs of
all entries in insertion order, or nothing at all when the key is `cookies`
and `exclude_cookies` is set (the loop `continue`s on every entry). -/
def collect_pairs (entries : List (Nat × FEntry)) (key : HCKey) (exclude_cookies : Bool) :
    List (String × String) :=
  entries.flatMap (fun kv =>
    if key = .cookies && exclude_cookies then [] else side_pairs kv.2 key)

/-- `create_dict` from `src/main.py`: pairs occurring more than twice, keyed by
consecutive integer IDs from 0 in first-seen order (`Counter` preserves
insertion order, the comprehensions preserve it, `enumerate` numbers it). -/
def create_dict (entries : List (Nat × FEntry)) (key : HCKey) (exclude_cookies : Bool) :
    List (Nat × (String × String)) :=
  let pairs := collect_pairs entries key exclude_cookies
  enum_from 0 ((py_first_seen pairs).filter (fun p => py_count pairs p > 2))

/-- The reverse index `item_to_index = {json.dumps(v): k ...}` applied to one
pair: `json.dumps` of a single-key dict is injective on `(name, value)`, so
serialized-string equality is pair equality. -/
def pair_id (item_dict : List (Nat × (String × String))) (p : String × String) : Option Nat :=
  (item_dict.find? (fun kv => kv.2 = p)).map (fun kv => kv.1)

/-- Substitution of one literal pair: replaced by its ID when tabled, kept
inline otherwise. -/
def subst_pair (item_dict : List (Nat × (String × String))) (p : String × String) : HCElem :=
  match pair_id item_dict p with
  | some i => .ref i
  | none => .inline p.1 p.2

/-- Substitution of one list element in `replace_items_with_references`:
`item.items()` on an already-substituted integer would raise
`AttributeError` (this never happens in the pipeline, where each key is
substituted exactly once starting from literal dictionaries). -/
def replace_item (item_dict : List (Nat × (String × String))) : HCElem → Except PyErr HCElem
  | .inline n v => .ok (subst_pair item_dict (n, v))
  | .ref _ => .error .attributeError

/-- One side's list under the target key:
`items = entry[side].get(key, []); ...; entry[side][key] = new_items` — an
absent key is read as `[]` and the key is (re)created on write. -/
def replace_side_list (item_dict : List (Nat × (String × String)))
    (items : Option (List HCElem)) : Except PyErr (List HCElem) :=
  mapME (replace_item item_dict) (items.getD [])

/-- Substitution over both sides of one entry for the target key. -/
def replace_entry_key (item_dict : List (Nat × (String × String))) (key : HCKey)
    (me : MEntry) : Except PyErr MEntry :=
  match key with
  | .headers => do
    let rq ← replace_side_list item_dict me.request.headers
    let rs ← replace_side_list item_dict me.response.headers
    .ok { me with
      request := { me.request with headers := some rq }
      response := { me.response with headers := some rs } }
  | .cookies => do
    let rq ← replace_side_list item_dict me.request.cookies
    let rs ← replace_side_list item_dict me.response.cookies
    .ok { me with
      request := { me.request with cookies := some rq }
      response := { me.response with cookies := some rs } }

/-- `replace_items_with_references` from `src/main.py`. -/
def replace_items_with_references (entries : List (Nat × MEntry))
    (item_dict : List (Nat × (String × String))) (key : HCKey) :
    Except PyErr (List (Nat × MEntry)) :=
  mapME (fun kv => do
    let me ← replace_entry_key item_dict key kv.2
    .ok (kv.1, me)) entries

/-- Type-level identity embedding a filtered entry into the substituted shape:
every header/cookie list element starts as a literal dictionary. -/
def inline_of (p : String × String) : HCElem := .inline p.1 p.2

/-- Injection of a filtered entry into the post-substitution entry type
(the values are unchanged; Python mutates the same dicts in place). -/
def inject_entry (fe : FEntry) : MEntry :=
  { request :=
      { url := fe.request.url
        cookies := fe.request.cookies.map (fun l => l.map inline_of)
        headers := fe.request.headers.map (fun l => l.map inline_of)
        queryString := fe.request.queryString
        postData := fe.request.postData }
    response :=
      { cookies := fe.response.cookies.map (fun l => l.map inline_of)
        headers := fe.response.headers.map (fun l => l.map inline_of)
        content := fe.response.content }
    comment := fe.comment }

/-- The final renumbering in `process_har_file`:
`for index, value in enumerate(minimized_entries, 1): sorted_entries[index] =
minimized_entries[value]`. -/
def renumber_go : Nat → List (Nat × MEntry) → List (Nat × MEntry)
  | _, [] => []
  | i, kv :: rest => (i, kv.2) :: renumber_go (i + 1) rest

/-- Dense 1-based renumbering of the substituted entries. -/
def renumber (l : List (Nat × MEntry)) : List (Nat × MEntry) :=
  renumber_go 1 l

/-- The output structure written by `process_har_file` (`cookie_dict` is
omitted when `exclude_cookies` is set). -/
structure HarOutput where
  entries : List (Nat × MEntry)
  header_dict : List (Nat × (String × String))
  cookie_dict : Option (List (Nat × (String × String)))
deriving Repr, DecidableEq

/-- `process_har_file` from `src/main.py`, from the parsed `log.entries` list
(file loading and serialization are outside the claims). -/
def process_har_entries (entries : List Entry)
    (exclude_static exclude_cookies exclude_standard_headers : Bool) :
    Except PyErr HarOutput := do
  let filtered ← filter_entries entries exclude_static exclude_cookies exclude_standard_headers
  let header_dict := create_dict filtered .headers false
  let cookie_dict := create_dict filtered .cookies exclude_cookies
  let injected := filtered.map (fun kv => (kv.1, inject_entry kv.2))
  let minimized ← replace_items_with_references injected header_dict .headers
  let minimized2 ←
    if exclude_cookies then pure minimized
    else replace_items_with_references minimized cookie_dict .cookies
  .ok { entries := renumber minimized2
        header_dict := header_dict
        cookie_dict := if exclude_cookies then none else some cookie_dict }

/-! Derived closed forms of the pipeline, used to state and prove the claims. -/

/-- The value of an entry after the `headers` substitution pass (cookies still
literal). -/
def dedup_headers (hd : List (Nat × (String × String))) (fe : FEntry) : MEntry :=
  { request :=
      { url := fe.request.url
        cookies := fe.request.cookies.map (fun l => l.map inline_of)
        headers := some ((fe.request.headers.getD []).map (fun p => subst_pair hd p))
        queryString := fe.request.queryString
        postData := fe.request.postData }
    response :=
      { cookies := fe.response.cookies.map (fun l => l.map inline_of)
        headers := some ((fe.response.headers.getD []).map (fun p => subst_pair hd p))
        content := fe.response.content }
    comment := fe.comment }

/-- The value of an entry after both substitution passes. -/
def dedup_both (hd cd : List (Nat × (String × String))) (fe : FEntry) : MEntry :=
  { request :=
      { url := fe.request.url
        cookies := some ((fe.request.cookies.getD []).map (fun p => subst_pair cd p))
        headers := some ((fe.request.headers.getD []).map (fun p => subst_pair hd p))
        queryString := fe.request.queryString
        postData := fe.request.postData }
    response :=
      { cookies := some ((fe.response.cookies.getD []).map (fun p => subst_pair cd p))
        headers := some ((fe.response.headers.getD []).map (fun p => subst_pair hd p))
        content := fe.response.content }
    comment := fe.comment }

/-- The value of an entry after the substitution stage of the pipeline
(the cookie pass is skipped when `exclude_cookies` is set). -/
def dedup_entry (hd cd : List (Nat × (String × String))) (ec : Bool) (fe : FEntry) : MEntry :=
  if ec then dedup_headers hd fe else dedup_both hd cd fe

/-- Closed form of `process_har_entries` on a successfully filtered list. -/
def har_output_of (fl : List (Nat × FEntry)) (ec : Bool) : HarOutput :=
  let hd := create_dict fl .headers false
  let cd := create_dict fl .cookies ec
  { entries := renumber (fl.map (fun kv => (kv.1, dedup_entry hd cd ec kv.2)))
    header_dict := hd
    cookie_dict := if ec then none else some cd }

/-! Generic lemmas about the `Except` embedding. -/

theorem ok_bind {α β : Type} (a : α) (f : α → Except PyErr β) :
    (Except.ok a >>= f) = f a := rfl

theorem error_bind {α β : Type} (e : PyErr) (f : α → Except PyErr β) :
    ((Except.error e : Except PyErr α) >>= f) = Except.error e := rfl

theorem except_bind_ok {α β : Type} (x : Except PyErr α) (f : α → Except PyErr β) (b : β) :
    (x >>= f) = .ok b ↔ ∃ a, x = .ok a ∧ f a = .ok b := by
  cases x with
  | ok a => simp [ok_bind]
  | error e => simp [error_bind]

theorem mapME_congr_map {α β γ : Type} (g : β → Except PyErr γ) (h : α → β) (h2 : α → γ)
    (l : List α) (H : ∀ a ∈ l, g (h a) = .ok (h2 a)) :
    mapME g (l.map h) = .ok (l.map h2) := by
  induction l with
  | nil => rfl
  | cons a l ih =>
    have ha := H a (by simp)
    have ih' := ih (fun x hx => H x (by simp [hx]))
    simp only [List.map_cons, mapME, ha, ih', ok_bind]

/-! Lemmas about the building blocks of the deduplicator. -/

theorem replace_item_inline (d : List (Nat × (String × String))) (p : String × String) :
    replace_item d (inline_of p) = .ok (subst_pair d p) := rfl

theorem mapME_replace_inline (d : List (Nat × (String × String))) (l : List (String × String)) :
    mapME (replace_item d) (l.map inline_of) = .ok (l.map (fun p => subst_pair d p)) :=
  mapME_congr_map _ _ _ l (fun a _ => replace_item_inline d a)

theorem getD_map_map {α β : Type} (g : α → β) (o : Option (List α)) :
    (o.map (fun l => l.map g)).getD [] = (o.getD []).map g := by
  cases o <;> rfl

theorem replace_side_inline (d : List (Nat × (String × String)))
    (o : Option (List (String × String))) :
    replace_side_list d (o.map (fun l => l.map inline_of)) =
      .ok ((o.getD []).map (fun p => subst_pair d p)) := by
  rw [replace_side_list, getD_map_map]
  exact mapME_replace_inline d _

theorem replace_headers_inject (d : List (Nat × (String × String))) (fe : FEntry) :
    replace_entry_key d .headers (inject_entry fe) = .ok (dedup_headers d fe) := by
  show (do
    let rq ← replace_side_list d ((inject_entry fe).request.headers)
    let rs ← replace_side_list d ((inject_entry fe).response.headers)
    Except.ok { inject_entry fe with
      request := { (inject_entry fe).request with headers := some rq }
      response := { (inject_entry fe).response with headers := some rs } }) =
    .ok (dedup_headers d fe)
  rw [show (inject_entry fe).request.headers = fe.request.headers.map (fun l => l.map inline_of) from rfl,
      show (inject_entry fe).response.headers = fe.response.headers.map (fun l => l.map inline_of) from rfl,
      replace_side_inline, replace_side_inline, ok_bind, ok_bind]
  rfl

theorem replace_cookies_dedup_headers (hd cd : List (Nat × (String × String))) (fe : FEntry) :
    replace_entry_key cd .cookies (dedup_headers hd fe) = .ok (dedup_both hd cd fe) := by
  show (do
    let rq ← replace_side_list cd ((dedup_headers hd fe).request.cookies)
    let rs ← replace_side_list cd ((dedup_headers hd fe).response.cookies)
    Except.ok { dedup_headers hd fe with
      request := { (dedup_headers hd fe).request with cookies := some rq }
      response := { (dedup_headers hd fe).response with cookies := some rs } }) =
    .ok (dedup_both hd cd fe)
  rw [show (dedup_headers hd fe).request.cookies = fe.request.cookies.map (fun l => l.map inline_of) from rfl,
      show (dedup_headers hd fe).response.cookies = fe.response.cookies.map (fun l => l.map inline_of) from rfl,
      replace_side_inline, replace_side_inline, ok_bind, ok_bind]
  rfl

theorem replace_pass_headers (d : List (Nat × (String × String))) (fl : List (Nat × FEntry)) :
    replace_items_with_references (fl.map (fun kv => (kv.1, inject_entry kv.2))) d .headers =
      .ok (fl.map (fun kv => (kv.1, dedup_headers d kv.2))) := by
  refine mapME_congr_map _ _ _ fl (fun (kv : Nat × FEntry) _ => ?_)
  show (do
    let me ← replace_entry_key d .headers (inject_entry kv.2)
    Except.ok (kv.1, me)) = _
  rw [replace_headers_inject, ok_bind]

theorem replace_pass_cookies (hd cd : List (Nat × (String × String))) (fl : List (Nat × FEntry)) :
    replace_items_with_references (fl.map (fun kv => (kv.1, dedup_headers hd kv.2))) cd .cookies =
      .ok (fl.map (fun kv => (kv.1, dedup_both hd cd kv.2))) := by
  refine mapME_congr_map _ _ _ fl (fun (kv : Nat × FEntry) _ => ?_)
  show (do
    let me ← replace_entry_key cd .cookies (dedup_headers hd kv.2)
    Except.ok (kv.1, me)) = _
  rw [replace_cookies_dedup_headers, ok_bind]

/-- When filtering succeeds, the whole pipeline succeeds and produces the
closed form: tables computed on the filtered (pre-substitution) entries,
substitution applied entrywise, dense renumbering from 1. -/
theorem process_ok_of_filter (entries : List Entry) (es ec eh : Bool)
    (fl : List (Nat × FEntry)) (hf : filter_entries entries es ec eh = .ok fl) :
    process_har_entries entries es ec eh = .ok (har_output_of fl ec) := by
  cases ec with
  | true =>
    simp [process_har_entries, hf, ok_bind, replace_pass_headers, har_output_of, dedup_entry,
      pure, Except.pure]
  | false =>
    simp [process_har_entries, hf, ok_bind, replace_pass_headers, replace_pass_cookies,
      har_output_of, dedup_entry]

/-- The pipeline fails exactly when filtering fails, with the same exception. -/
theorem process_error_of_filter (entries : List Entry) (es ec eh : Bool)
    (e : PyErr) (hf : filter_entries entries es ec eh = .error e) :
    process_har_entries entries es ec eh = .error e := by
  unfold process_har_entries
  rw [hf, error_bind]

/-- Success of the pipeline forces success of the filter, and determines the
output as the closed form. -/
theorem process_ok_iff (entries : List Entry) (es ec eh : Bool) (out : HarOutput) :
    process_har_entries entries es ec eh = .ok out ↔
      ∃ fl, filter_entries entries es ec eh = .ok fl ∧ out = har_output_of fl ec := by
  constructor
  · intro h
    cases hf : filter_entries entries es ec eh with
    | ok fl =>
      refine ⟨fl, rfl, ?_⟩
      have := process_ok_of_filter entries es ec eh fl hf
      rw [h] at this
      exact (Except.ok.injEq _ _).mp this.symm |>.symm ▸ rfl
    | error e =>
      rw [process_error_of_filter entries es ec eh e hf] at h
      cases h
  · rintro ⟨fl, hf, rfl⟩
    exact process_ok_of_filter entries es ec eh fl hf

/-! Lemmas about `enum_from` (Python `enumerate`). -/

theorem mem_enum_from {α : Type} (i j : Nat) (a : α) (l : List α) :
    (j, a) ∈ enum_from i l ↔ ∃ k, l.get? k = some a ∧ j = i + k := by
  induction l generalizing i with
  | nil => simp [enum_from]
  | cons b l ih =>
    simp only [enum_from, List.mem_cons, ih (i + 1)]
    constructor
    · rintro (h | ⟨k, hk, rfl⟩)
      · injection h with h1 h2
        subst h1; subst h2
        exact ⟨0, by simp, by omega⟩
      · exact ⟨k + 1, by simpa using hk, by omega⟩
    · rintro ⟨k, hk, rfl⟩
      cases k with
      | zero => left; simp_all
      | succ k => right; exact ⟨k, by simpa using hk, by omega⟩

theorem enum_from_fst_inj {α : Type} (i j : Nat) (a b : α) (l : List α)
    (ha : (j, a) ∈ enum_from i l) (hb : (j, b) ∈ enum_from i l) : a = b := by
  obtain ⟨k, hk, rfl⟩ := (mem_enum_from i j a l).mp ha
  obtain ⟨k', hk', he⟩ := (mem_enum_from i _ b l).mp hb
  have : k = k' := by omega
  subst this
  rw [hk] at hk'
  exact (Option.some.injEq _ _).mp hk'

theorem enum_from_snd_inj {α : Type} (i j j' : Nat) (a : α) (l : List α)
    (hn : l.Nodup) (ha : (j, a) ∈ enum_from i l) (hb : (j', a) ∈ enum_from i l) : j = j' := by
  obtain ⟨k, hk, rfl⟩ := (mem_enum_from i j a l).mp ha
  obtain ⟨k', hk', rfl⟩ := (mem_enum_from i j' a l).mp hb
  rw [List.get?_eq_getElem?] at hk hk'
  have hlt : k < l.length := by
    by_contra hge
    rw [List.getElem?_eq_none (by omega)] at hk
    cases hk
  have : k = k' := List.getElem?_inj hlt hn (hk.trans hk'.symm)
  omega

theorem exists_mem_enum_from {α : Type} (i : Nat) (a : α) (l : List α) (h : a ∈ l) :
    ∃ j, (j, a) ∈ enum_from i l := by
  obtain ⟨k, hk⟩ := List.get_of_mem h
  refine ⟨i + k.1, (mem_enum_from i _ a l).mpr ⟨k.1, ?_, rfl⟩⟩
  rw [List.get?_eq_get k.2, hk]

theorem snd_mem_of_mem_enum_from {α : Type} (i j : Nat) (a : α) (l : List α)
    (h : (j, a) ∈ enum_from i l) : a ∈ l := by
  obtain ⟨k, hk, _⟩ := (mem_enum_from i j a l).mp h
  exact List.get?_mem hk

/-! Lemmas about `py_first_seen` and `py_count`. -/

theorem py_first_seen_go {l : List (String × String)} :
    ∀ acc : List (String × String),
      (l.foldl (fun acc x => if x ∈ acc then acc else acc ++ [x]) acc ≠ [] → acc ≠ [] ∨ l ≠ []) ∧
      (∀ x, x ∈ l.foldl (fun acc x => if x ∈ acc then acc else acc ++ [x]) acc ↔ x ∈ acc ∨ x ∈ l) ∧
      (acc.Nodup → (l.foldl (fun acc x => if x ∈ acc then acc else acc ++ [x]) acc).Nodup) := by
  induction l with
  | nil => intro acc; simp
  | cons a l ih =>
    intro acc
    refine ⟨fun _ => by simp, fun x => ?_, fun hn => ?_⟩
    · by_cases h : a ∈ acc
      · rw [List.foldl_cons, if_pos h, ((ih acc).2.1 x)]
        constructor
        · rintro (hx | hx)
          · exact Or.inl hx
          · exact Or.inr (by simp [hx])
        · rintro (hx | hx)
          · exact Or.inl hx
          · rcases List.mem_cons.mp hx with rfl | hx
            · exact Or.inl h
            · exact Or.inr hx
      · rw [List.foldl_cons, if_neg h, ((ih (acc ++ [a])).2.1 x)]
        simp only [List.mem_append, List.mem_singleton, List.mem_cons]
        tauto
    · by_cases h : a ∈ acc
      · rw [List.foldl_cons, if_pos h]
        exact (ih acc).2.2 hn
      · rw [List.foldl_cons, if_neg h]
        exact (ih (acc ++ [a])).2.2 (by simp [List.nodup_append, hn, h])

theorem mem_py_first_seen (x : String × String) (l : List (String × String)) :
    x ∈ py_first_seen l ↔ x ∈ l := by
  rw [py_first_seen, (py_first_seen_go []).2.1 x]
  simp

theorem py_first_seen_nodup (l : List (String × String)) : (py_first_seen l).Nodup :=
  (py_first_seen_go []).2.2 List.nodup_nil

theorem py_count_pos_iff_mem (l : List (String × String)) (p : String × String) :
    0 < py_count l p ↔ p ∈ l := by
  rw [py_count, List.length_pos_iff_exists_mem]
  constructor
  · rintro ⟨x, hx⟩
    obtain ⟨hx1, hx2⟩ := List.mem_filter.mp hx
    exact (by simpa using hx2 : x = p) ▸ hx1
  · intro h
    exact ⟨p, List.mem_filter.mpr ⟨h, by simp⟩⟩

/-! Lemmas about `create_dict` and `pair_id`. -/

/-- The table produced by `create_dict` assigns some ID to a pair exactly when
the pair's occurrence count in the collected stream exceeds 2. -/
theorem create_dict_mem_iff (fl : List (Nat × FEntry)) (key : HCKey) (ec : Bool)
    (p : String × String) :
    (∃ i, (i, p) ∈ create_dict fl key ec) ↔ 2 < py_count (collect_pairs fl key ec) p := by
  rw [create_dict]
  constructor
  · rintro ⟨i, hi⟩
    have := snd_mem_of_mem_enum_from 0 i p _ hi
    exact of_decide_eq_true (by simpa using (List.mem_filter.mp this).2)
  · intro h
    have hp : p ∈ collect_pairs fl key ec :=
      (py_count_pos_iff_mem _ p).mp (by omega)
    have : p ∈ (py_first_seen (collect_pairs fl key ec)).filter
        (fun q => py_count (collect_pairs fl key ec) q > 2) :=
      List.mem_filter.mpr ⟨(mem_py_first_seen p _).mpr hp, by simpa using h⟩
    exact exists_mem_enum_from 0 p _ this

theorem create_dict_filter_nodup (fl : List (Nat × FEntry)) (key : HCKey) (ec : Bool) :
    ((py_first_seen (collect_pairs fl key ec)).filter
      (fun q => py_count (collect_pairs fl key ec) q > 2)).Nodup :=
  (py_first_seen_nodup _).filter _

/-- IDs in a `create_dict` table determine their pair. -/
theorem create_dict_id_det (fl : List (Nat × FEntry)) (key : HCKey) (ec : Bool)
    (i : Nat) (p q : String × String)
    (hp : (i, p) ∈ create_dict fl key ec) (hq : (i, q) ∈ create_dict fl key ec) : p = q :=
  enum_from_fst_inj 0 i p q _ hp hq

/-- Pairs in a `create_dict` table have a unique ID. -/
theorem create_dict_pair_det (fl : List (Nat × FEntry)) (key : HCKey) (ec : Bool)
    (i j : Nat) (p : String × String)
    (hp : (i, p) ∈ create_dict fl key ec) (hq : (j, p) ∈ create_dict fl key ec) : i = j :=
  enum_from_snd_inj 0 i j p _ (create_dict_filter_nodup fl key ec) hp hq

/-- `pair_id` resolves a tabled pair to its (unique) ID. -/
theorem pair_id_eq_some_of_mem (fl : List (Nat × FEntry)) (key : HCKey) (ec : Bool)
    (i : Nat) (p : String × String) (hp : (i, p) ∈ create_dict fl key ec) :
    pair_id (create_dict fl key ec) p = some i := by
  rw [pair_id]
  cases hf : (create_dict fl key ec).find? (fun kv => kv.2 = p) with
  | none =>
    have := List.find?_eq_none.mp hf (i, p) hp
    simp at this
  | some kv =>
    have h1 : kv ∈ create_dict fl key ec := List.mem_of_find?_eq_some hf
    have h2 : kv.2 = p := by simpa using List.find?_some hf
    have : kv.1 = i := create_dict_pair_det fl key ec kv.1 i p (by
      have : kv = (kv.1, kv.2) := rfl
      rw [h2] at this
      exact this ▸ h1) hp
    simp [this]

/-- `pair_id` is `none` exactly on untabled pairs. -/
theorem pair_id_eq_none_iff (d : List (Nat × (String × String))) (p : String × String) :
    pair_id d p = none ↔ ∀ i, (i, p) ∉ d := by
  rw [pair_id, Option.map_eq_none']
  constructor
  · intro h i hip
    have := List.find?_eq_none.mp h (i, p) hip
    simp at this
  · intro h
    rw [List.find?_eq_none]
    rintro ⟨i, q⟩ hm hq
    exact h i ((by simpa using hq : q = p) ▸ hm)

/-! Lemmas about `renumber`. -/

theorem renumber_go_map_fst (i : Nat) (l : List (Nat × MEntry)) :
    (renumber_go i l).map Prod.fst = List.range' i l.length := by
  induction l generalizing i with
  | nil => rfl
  | cons kv l ih => simp [renumber_go, List.range'_succ, ih]

theorem renumber_map_fst (l : List (Nat × MEntry)) :
    (renumber l).map Prod.fst = List.range' 1 l.length :=
  renumber_go_map_fst 1 l

theorem renumber_go_map_snd (i : Nat) (l : List (Nat × MEntry)) :
    (renumber_go i l).map Prod.snd = l.map Prod.snd := by
  induction l generalizing i with
  | nil => rfl
  | cons kv l ih => simp [renumber_go, ih]

theorem renumber_map_snd (l : List (Nat × MEntry)) :
    (renumber l).map Prod.snd = l.map Prod.snd :=
  renumber_go_map_snd 1 l

theorem mem_renumber_snd (l : List (Nat × MEntry)) (kv : Nat × MEntry)
    (h : kv ∈ renumber l) : ∃ kv' ∈ l, kv.2 = kv'.2 := by
  have : kv.2 ∈ (renumber l).map Prod.snd := List.mem_map_of_mem Prod.snd h
  rw [renumber_map_snd] at this
  obtain ⟨kv', h1, h2⟩ := List.mem_map.mp this
  exact ⟨kv', h1, h2.symm⟩

/-! Lemmas about `filter_entries`. -/

/-- Every kept entry of the filter output is the successful image of the source
entry at its recorded original index, and the recorded indices are strictly
increasing (original relative order is preserved). -/
theorem filter_entries_go_spec (es ec eh : Bool) (l : List Entry) (i : Nat)
    (fl : List (Nat × FEntry)) (h : filter_entries_go es ec eh i l = .ok fl) :
    List.Pairwise (fun a b => a.1 < b.1) fl ∧
      ∀ kv ∈ fl, i ≤ kv.1 ∧ ∃ e, l.get? (kv.1 - i) = some e ∧
        filter_entry e es ec eh = .ok (some kv.2) := by
  induction l generalizing i fl with
  | nil =>
    cases h
    simp
  | cons e rest ih =>
    rw [filter_entries_go] at h
    cases hfe : filter_entry e es ec eh with
    | error err => rw [hfe] at h; cases h
    | ok o =>
      rw [hfe, ok_bind] at h
      cases o with
      | none =>
        obtain ⟨hp, hm⟩ := ih (i + 1) fl h
        refine ⟨hp, fun kv hkv => ?_⟩
        obtain ⟨hle, e', he', hfe'⟩ := hm kv hkv
        refine ⟨by omega, e', ?_, hfe'⟩
        have : kv.1 - i = (kv.1 - (i + 1)) + 1 := by omega
        rw [this]
        simpa using he'
      | some fe =>
        cases hr : filter_entries_go es ec eh (i + 1) rest with
        | error err => simp [hr, error_bind] at h
        | ok r =>
          rw [hr] at h
          simp only [ok_bind, Except.ok.injEq] at h
          subst h
          obtain ⟨hp, hm⟩ := ih (i + 1) r hr
          constructor
          · refine List.pairwise_cons.mpr ⟨fun kv hkv => ?_, hp⟩
            have := (hm kv hkv).1
            omega
          · intro kv hkv
            rcases List.mem_cons.mp hkv with rfl | hkv
            · exact ⟨le_refl _, e, by simp, hfe⟩
            · obtain ⟨hle, e', he', hfe'⟩ := hm kv hkv
              refine ⟨by omega, e', ?_, hfe'⟩
              have : kv.1 - i = (kv.1 - (i + 1)) + 1 := by omega
              rw [this]
              simpa using he'

theorem filter_entries_spec (entries : List Entry) (es ec eh : Bool)
    (fl : List (Nat × FEntry)) (h : filter_entries entries es ec eh = .ok fl) :
    List.Pairwise (fun a b => a.1 < b.1) fl ∧
      ∀ kv ∈ fl, ∃ e, entries.get? kv.1 = some e ∧
        filter_entry e es ec eh = .ok (some kv.2) := by
  obtain ⟨hp, hm⟩ := filter_entries_go_spec es ec eh entries 0 fl h
  exact ⟨hp, fun kv hkv => by simpa using (hm kv hkv).2⟩

/-! Characterization of one successful `filter_entries` loop iteration. -/

/-- The filtered entry built by a successful loop iteration, parameterized by
the results of the three fallible steps. -/
def filtered_entry_of (e : Entry) (eh : Bool) (rc sc : Option (List (String × String)))
    (post : Option PostOut) : FEntry :=
  { request :=
      { url := e.request.url
        cookies := rc
        headers := e.request.headers.map (fun hs => convert_headers hs eh)
        queryString := e.request.queryString.map
          (fun qs => qs.map (fun item => (item.name, unquote item.value)))
        postData := post }
    response :=
      { cookies := sc
        headers := e.response.headers.map (fun hs => convert_headers hs eh)
        content := e.response.content.map (fun c => decode_data (c.text.getD "")) }
    comment := e.comment.getD "" }

theorem filter_entry_ok_some_iff (e : Entry) (es ec eh : Bool) (fe : FEntry) :
    filter_entry e es ec eh = .ok (some fe) ↔
      (es && matches_static_url e.request.url) = false ∧
      ∃ rc sc post,
        cookies_step e.request.cookies ec = .ok rc ∧
        cookies_step e.response.cookies ec = .ok sc ∧
        post_data_step e.request = .ok post ∧
        fe = filtered_entry_of e eh rc sc post := by
  rw [filter_entry]
  by_cases hcond : (es && matches_static_url e.request.url) = true
  · rw [if_pos hcond]
    constructor
    · intro h
      simp at h
    · rintro ⟨hfalse, -⟩
      rw [hcond] at hfalse
      cases hfalse
  · rw [if_neg hcond]
    simp only [Bool.not_eq_true] at hcond
    constructor
    · intro h
      obtain ⟨rc, hrc, h⟩ := (except_bind_ok _ _ _).mp h
      obtain ⟨sc, hsc, h⟩ := (except_bind_ok _ _ _).mp h
      obtain ⟨post, hpost, h⟩ := (except_bind_ok _ _ _).mp h
      refine ⟨hcond, rc, sc, post, hrc, hsc, hpost, ?_⟩
      simp only [Except.ok.injEq, Option.some.injEq] at h
      exact h.symm
    · rintro ⟨-, rc, sc, post, hrc, hsc, hpost, rfl⟩
      rw [hrc, ok_bind, hsc, ok_bind, hpost, ok_bind]
      rfl

theorem filter_entry_error_req_cookies (e : Entry) (es ec eh : Bool) (err : PyErr)
    (hstat : (es && matches_static_url e.request.url) = false)
    (herr : cookies_step e.request.cookies ec = .error err) :
    filter_entry e es ec eh = .error err := by
  rw [filter_entry, if_neg (by simp [hstat]), herr, error_bind]

theorem filter_entry_error_resp_cookies (e : Entry) (es ec eh : Bool) (err : PyErr)
    (rc : Option (List (String × String)))
    (hstat : (es && matches_static_url e.request.url) = false)
    (hok : cookies_step e.request.cookies ec = .ok rc)
    (herr : cookies_step e.response.cookies ec = .error err) :
    filter_entry e es ec eh = .error err := by
  rw [filter_entry, if_neg (by simp [hstat]), hok, ok_bind, herr, error_bind]

theorem filter_entry_error_post (e : Entry) (es ec eh : Bool) (err : PyErr)
    (rc sc : Option (List (String × String)))
    (hstat : (es && matches_static_url e.request.url) = false)
    (hok1 : cookies_step e.request.cookies ec = .ok rc)
    (hok2 : cookies_step e.response.cookies ec = .ok sc)
    (herr : post_data_step e.request = .error err) :
    filter_entry e es ec eh = .error err := by
  rw [filter_entry, if_neg (by simp [hstat]), hok1, ok_bind, hok2, ok_bind, herr, error_bind]

/-- Evaluations of `cookies_step` on each source shape. -/
theorem cookies_step_none (ec : Bool) : cookies_step none ec = .error .keyError := by
  cases ec <;> rfl

theorem cookies_step_some_false (l : List NameValue) :
    cookies_step (some l) false = .ok (some (l.map (fun c => (c.name, c.value)))) := rfl

theorem cookies_step_some_true (l : List NameValue) :
    cookies_step (some l) true = .ok none := rfl

/-- Comments survive substitution unchanged. -/
theorem dedup_entry_comment (hd cd : List (Nat × (String × String))) (ec : Bool) (fe : FEntry) :
    (dedup_entry hd cd ec fe).comment = fe.comment := by
  cases ec <;> rfl

/-- URLs survive substitution unchanged. -/
theorem dedup_entry_url (hd cd : List (Nat × (String × String))) (ec : Bool) (fe : FEntry) :
    (dedup_entry hd cd ec fe).request.url = fe.request.url := by
  cases ec <;> rfl

/-- Both header lists after substitution, independent of the cookie pass. -/
theorem dedup_entry_headers (hd cd : List (Nat × (String × String))) (ec : Bool) (fe : FEntry) :
    (dedup_entry hd cd ec fe).request.headers =
        some ((fe.request.headers.getD []).map (fun p => subst_pair hd p)) ∧
      (dedup_entry hd cd ec fe).response.headers =
        some ((fe.response.headers.getD []).map (fun p => subst_pair hd p)) := by
  cases ec <;> exact ⟨rfl, rfl⟩

/-- Mapping a function of the entry over the renumbered list ignores the keys. -/
theorem renumber_map_snd_fun {γ : Type} (g : MEntry → γ) (l : List (Nat × MEntry)) :
    (renumber l).map (fun kv => g kv.2) = l.map (fun kv => g kv.2) := by
  have h1 : (fun kv : Nat × MEntry => g kv.2) = g ∘ Prod.snd := rfl
  rw [h1, ← List.map_map, renumber_map_snd, List.map_map]

/-- A resolved `pair_id` witnesses table membership of the very pair looked
up (the reverse index maps the serialized pair back to its ID). -/
theorem mem_of_pair_id_eq_some (d : List (Nat × (String × String))) (p : String × String)
    (i : Nat) (h : pair_id d p = some i) : (i, p) ∈ d := by
  rw [pair_id] at h
  cases hf : d.find? (fun kv => kv.2 = p) with
  | none => rw [hf] at h; cases h
  | some kv =>
    rw [hf] at h
    simp only [Option.map_some', Option.some.injEq] at h
    have hm := List.mem_of_find?_eq_some hf
    have h2 : kv.2 = p := by simpa using List.find?_some hf
    have : kv = (i, p) := by
      rw [show kv = (kv.1, kv.2) from rfl, h, h2]
    exact this ▸ hm

/-- Every substituted element is literal, or a reference whose ID resolves in
the table to the original pair. -/
theorem subst_pair_elem (d : List (Nat × (String × String))) (p : String × String) :
    subst_pair d p = .inline p.1 p.2 ∨
      ∃ i, subst_pair d p = .ref i ∧ (i, p) ∈ d := by
  rw [subst_pair]
  cases hid : pair_id d p with
  | none => exact Or.inl rfl
  | some i => exact Or.inr ⟨i, rfl, mem_of_pair_id_eq_some d p i hid⟩

/-- The header lists of the output are exactly the substituted images of the
filtered entries' header lists, entry by entry, in order. -/
def entry_headers_substituted (out : HarOutput) (fl : List (Nat × FEntry))
    (hd : List (Nat × (String × String))) : Prop :=
  out.entries.map (fun kv => (kv.2.request.headers, kv.2.response.headers)) =
    fl.map (fun kv =>
      (some ((kv.2.request.headers.getD []).map (fun p => subst_pair hd p)),
       some ((kv.2.response.headers.getD []).map (fun p => subst_pair hd p))))

/-- The pipeline's output satisfies the header-substitution formula, with the
table computed on the pre-substitution filtered entries. -/
theorem process_headers_substituted (entries : List Entry) (es ec eh : Bool)
    (fl : List (Nat × FEntry)) (out : HarOutput)
    (hf : filter_entries entries es ec eh = .ok fl)
    (hp : process_har_entries entries es ec eh = .ok out) :
    out.header_dict = create_dict fl .headers false ∧
      entry_headers_substituted out fl (create_dict fl .headers false) := by
  obtain ⟨fl', hf', hout⟩ := (process_ok_iff entries es ec eh out).mp hp
  rw [hf] at hf'
  obtain rfl : fl = fl' := by simpa using hf'
  subst hout
  refine ⟨rfl, ?_⟩
  rw [entry_headers_substituted]
  show (renumber (fl.map (fun kv => (kv.1, dedup_entry _ _ ec kv.2)))).map
    (fun kv => (kv.2.request.headers, kv.2.response.headers)) = _
  rw [renumber_map_snd_fun (fun me => (me.request.headers, me.response.headers))]
  rw [List.map_map]
  refine List.map_congr_left (fun kv _ => ?_)
  have h := dedup_entry_headers (create_dict fl .headers false)
    (create_dict fl .cookies ec) ec kv.2
  simp only [Function.comp]
  rw [h.1, h.2]

/-- Inversion of `mapME`: a successful monadic map has the same length as its
input and is pointwise the successful image. -/
theorem mapME_ok_get {α β : Type} (f : α → Except PyErr β) (l : List α) (ys : List β)
    (h : mapME f l = .ok ys) :
    ys.length = l.length ∧
      ∀ k a, l.get? k = some a → ∃ b, f a = .ok b ∧ ys.get? k = some b := by
  induction l generalizing ys with
  | nil =>
    cases h
    simp
  | cons a l ih =>
    rw [mapME] at h
    obtain ⟨b, hb, h⟩ := (except_bind_ok _ _ _).mp h
    obtain ⟨r, hr, h⟩ := (except_bind_ok _ _ _).mp h
    simp only [Except.ok.injEq] at h
    subst h
    obtain ⟨hlen, hget⟩ := ih r hr
    refine ⟨by simp [hlen], fun k x hk => ?_⟩
    cases k with
    | zero =>
      simp only [List.get?] at hk
      cases hk
      exact ⟨b, hb, rfl⟩
    | succ k =>
      simp only [List.get?] at hk
      obtain ⟨b', hb', hy⟩ := hget k x hk
      exact ⟨b', hb', by simpa using hy⟩

/-- Elements of a substituted list are literal pairs or resolvable references. -/
theorem subst_list_elem (d : List (Nat × (String × String))) (l : List (String × String)) :
    ∀ el ∈ l.map (fun p => subst_pair d p),
      (∃ n v, el = HCElem.inline n v) ∨ ∃ i p, el = HCElem.ref i ∧ (i, p) ∈ d := by
  intro el hel
  obtain ⟨p, -, rfl⟩ := List.mem_map.mp hel
  rcases subst_pair_elem d p with h | ⟨i, h, hm⟩
  · exact Or.inl ⟨p.1, p.2, h⟩
  · exact Or.inr ⟨i, p, h, hm⟩

/-- Elements of an injected (never substituted) list are literal pairs. -/
theorem inline_list_elem (l : List (String × String)) :
    ∀ el ∈ l.map inline_of, ∃ n v, el = HCElem.inline n v := by
  intro el hel
  obtain ⟨p, -, rfl⟩ := List.mem_map.mp hel
  exact ⟨p.1, p.2, rfl⟩

/-- Every output entry is the substituted image of some filtered entry. -/
theorem process_entry_shape (entries : List Entry) (es ec eh : Bool)
    (fl : List (Nat × FEntry)) (out : HarOutput)
    (hf : filter_entries entries es ec eh = .ok fl)
    (hp : process_har_entries entries es ec eh = .ok out) :
    ∀ kv ∈ out.entries, ∃ fe, (∃ k0, (k0, fe) ∈ fl) ∧
      kv.2 = dedup_entry (create_dict fl .headers false) (create_dict fl .cookies ec) ec fe := by
  obtain ⟨fl', hf', hout⟩ := (process_ok_iff entries es ec eh out).mp hp
  rw [hf] at hf'
  obtain rfl : fl = fl' := by simpa using hf'
  subst hout
  intro kv hkv
  obtain ⟨kv', hkv', hsnd⟩ := mem_renumber_snd _ kv hkv
  obtain ⟨kv0, hkv0, heq⟩ := List.mem_map.mp hkv'
  refine ⟨kv0.2, ⟨kv0.1, by simpa using hkv0⟩, ?_⟩
  rw [hsnd, ← heq]

/-! Concrete inputs used by witnesses and counterexamples. -/

/-- A placeholder filtered entry used only to extract computed values. -/
def fallback_fentry : FEntry :=
  { request := { url := "", cookies := none, headers := none, queryString := none, postData := none }
    response := { cookies := none, headers := none, content := none }
    comment := "" }

/-- An entry with no `comment` field and `cookies` present on both sides. -/
def ex10_entry : Entry :=
  { request := { url := "https://x.com/a", cookies := some [], headers := some [],
                 queryString := none, postData := none }
    response := { cookies := some [], headers := some [], content := none }
    comment := none }

/-- The filtered image of `ex10_entry`. -/
def ex10_fe : FEntry :=
  ((filter_entry ex10_entry false false false).toOption.getD none).getD fallback_fentry

/-- An entry whose source request has no `cookies` key. -/
def ex4_entry : Entry :=
  { request := { url := "https://x.com/a", cookies := none, headers := some [],
                 queryString := none, postData := none }
    response := { cookies := some [], headers := some [], content := none }
    comment := none }

/-- An entry with cookies on both sides. -/
def ex4w_entry : Entry :=
  { request := { url := "https://x.com/a", cookies := some [⟨"a", "b"⟩], headers := some [],
                 queryString := none, postData := none }
    response := { cookies := some [], headers := some [], content := none }
    comment := none }

/-- The filtered image of `ex4w_entry`. -/
def ex4w_fe : FEntry :=
  ((filter_entry ex4w_entry false false false).toOption.getD none).getD fallback_fentry

/-- A two-part multipart body with boundary `XYZ` (the spec scenario). -/
def ex7_data : String :=
  "--XYZ\r\nContent-Disposition: form-data; name=\"field1\"\r\n\r\nvalue1\r\n--XYZ\r\nContent-Disposition: form-data; name=\"field2\"\r\n\r\nvalue2\r\n--XYZ--"

/-- A multipart body whose single part's value itself holds a blank-line
separator. -/
def ex7_cx_data : String :=
  "--XYZ\r\nContent-Disposition: form-data; name=\"f\"\r\n\r\na\r\n\r\nb\r\n--XYZ--"

/-- An entry with a static-extension URL (dropped under `--no-static`). -/
def ex8_js : Entry :=
  { request := { url := "https://x.com/app.js?v=2", cookies := some [], headers := some [],
                 queryString := none, postData := none }
    response := { cookies := some [], headers := some [], content := none }
    comment := none }

/-- An ordinary page entry kept by the static filter. -/
def ex8_page : Entry :=
  { request := { url := "https://x.com/page", cookies := some [], headers := some [],
                 queryString := none, postData := none }
    response := { cookies := some [], headers := some [], content := none }
    comment := none }

/-- The pipeline output on `[ex8_js, ex8_page]` with `--no-static`. -/
def ex8_out : HarOutput :=
  (process_har_entries [ex8_js, ex8_page] true false false).toOption.getD ⟨[], [], none⟩

/-- The filter output on `[ex8_js, ex8_page]` with `--no-static`. -/
def ex5_fl : List (Nat × FEntry) :=
  (filter_entries [ex8_js, ex8_page] true false false).toOption.getD []

/-- An entry carrying three occurrences of the header pair
`("Accept", "application/json")` (the spec scenario). -/
def ex1_entry : Entry :=
  { request := { url := "https://x.com/a", cookies := some [],
                 headers := some [⟨"Accept", "application/json"⟩, ⟨"Accept", "application/json"⟩],
                 queryString := none, postData := none }
    response := { cookies := some [], headers := some [⟨"Accept", "application/json"⟩],
                  content := none }
    comment := none }

/-- The filter output on `[ex1_entry]`. -/
def ex1_fl : List (Nat × FEntry) :=
  (filter_entries [ex1_entry] false false false).toOption.getD []

/-- The pipeline output on `[ex1_entry]`. -/
def ex1_out : HarOutput :=
  (process_har_entries [ex1_entry] false false false).toOption.getD ⟨[], [], none⟩

/-- An entry carrying exactly two occurrences of the header pair `("B", "c")`. -/
def ex3_entry : Entry :=
  { request := { url := "https://x.com/a", cookies := some [],
                 headers := some [⟨"B", "c"⟩, ⟨"B", "c"⟩],
                 queryString := none, postData := none }
    response := { cookies := some [], headers := some [], content := none }
    comment := none }

/-- The filter output on `[ex3_entry]`. -/
def ex3_fl : List (Nat × FEntry) :=
  (filter_entries [ex3_entry] false false false).toOption.getD []

/-- The pipeline output on `[ex3_entry]`. -/
def ex3_out : HarOutput :=
  (process_har_entries [ex3_entry] false false false).toOption.getD ⟨[], [], none⟩

/-- A multipart entry whose request headers contain no `Content-Type`. -/
def ex9_entry : Entry :=
  { request := { url := "https://x.com/up", cookies := some [], headers := some [⟨"Accept", "x"⟩],
                 queryString := none, postData := some { mimeType := some "multipart/form-data", text := some "" } }
    response := { cookies := some [], headers := some [], content := none }
    comment := none }

/-! Claim theorems. -/

/-- C10: every entry kept by the filter carries a `comment` key whose value is
the source comment, or the empty string when the source entry has no comment;
the substitution stage preserves comments into the final output entries, so an
absent entry-level comment never occurs. -/
theorem C10_comment_always_present :
    (∀ (e : Entry) (es ec eh : Bool) (fe : FEntry),
      filter_entry e es ec eh = .ok (some fe) →
        fe.comment = e.comment.getD "" ∧ (e.comment = none → fe.comment = "")) ∧
    (∀ (entries : List Entry) (es ec eh : Bool) (fl : List (Nat × FEntry)) (out : HarOutput),
      filter_entries entries es ec eh = .ok fl →
      process_har_entries entries es ec eh = .ok out →
        out.entries.map (fun kv => kv.2.comment) = fl.map (fun kv => kv.2.comment)) := by
  constructor
  · intro e es ec eh fe h
    obtain ⟨-, rc, sc, post, -, -, -, rfl⟩ := (filter_entry_ok_some_iff e es ec eh fe).mp h
    exact ⟨rfl, fun hc => by simp [filtered_entry_of, hc]⟩
  · intro entries es ec eh fl out hf hp
    obtain ⟨fl', hf', hout⟩ := (process_ok_iff entries es ec eh out).mp hp
    rw [hf] at hf'
    obtain rfl : fl = fl' := by simpa using hf'
    subst hout
    show (renumber _).map (fun kv => kv.2.comment) = _
    rw [renumber_map_snd_fun MEntry.comment, List.map_map]
    refine List.map_congr_left (fun kv _ => ?_)
    simp only [Function.comp]
    exact dedup_entry_comment _ _ ec kv.2

/-- C10 witness: a concrete entry without a source comment filters to a kept
entry whose comment is the empty string. -/
theorem C10_comment_always_present_witness :
    filter_entry ex10_entry false false false = .ok (some ex10_fe) ∧
    ex10_entry.comment = none ∧ ex10_fe.comment = "" :=
  ⟨by decide, rfl,
    (C10_comment_always_present.1 ex10_entry false false false ex10_fe (by decide)).2 rfl⟩

/-- C4 counterexample: on an entry whose source request has no `cookies` key
(and which the static filter does not skip), `filter_entries` does not complete:
the cookie `del` raises `KeyError`, contradicting the claim that the filtered
side simply lacks the key and filtering completes without error. -/
theorem C4_counterexample :
    filter_entry ex4_entry false false false = .error .keyError ∧
    (∀ fe, filter_entry ex4_entry false false false ≠ .ok (some fe)) ∧
    filter_entries [ex4_entry] false false false = .error .keyError := by
  refine ⟨by decide, fun fe h => ?_, by decide⟩
  rw [show filter_entry ex4_entry false false false = .error .keyError from by decide] at h
  cases h

/-- C4 (amended): for a non-skipped entry and each side — if the source side
has a `cookies` list and `exclude_cookies` is false, the filtered side's
cookies are the `{name: value}` pairs in order; if the source side has cookies
and `exclude_cookies` is true, the filtered side has no cookies key; but if the
source side has no `cookies` key, filtering raises `KeyError` instead of
completing. -/
theorem C4_cookies_amended (e : Entry) (es ec eh : Bool)
    (hstat : (es && matches_static_url e.request.url) = false) :
    (∀ fe, filter_entry e es ec eh = .ok (some fe) →
      fe.request.cookies = (match e.request.cookies, ec with
        | some cs, false => some (cs.map (fun c => (c.name, c.value)))
        | _, _ => none) ∧
      fe.response.cookies = (match e.response.cookies, ec with
        | some cs, false => some (cs.map (fun c => (c.name, c.value)))
        | _, _ => none)) ∧
    (e.request.cookies = none → filter_entry e es ec eh = .error .keyError) ∧
    (∀ cs, e.request.cookies = some cs → e.response.cookies = none →
      filter_entry e es ec eh = .error .keyError) := by
  refine ⟨?_, ?_, ?_⟩
  · intro fe h
    obtain ⟨-, rc, sc, post, hrc, hsc, -, rfl⟩ := (filter_entry_ok_some_iff e es ec eh fe).mp h
    constructor
    · show rc = _
      rcases hq : e.request.cookies with - | cs <;> cases ec <;> simp_all [cookies_step]
    · show sc = _
      rcases hq : e.response.cookies with - | cs <;> cases ec <;> simp_all [cookies_step]
  · intro hnone
    exact filter_entry_error_req_cookies e es ec eh .keyError hstat
      (by rw [hnone, cookies_step_none])
  · intro cs hcs hnone
    cases ec with
    | false =>
      exact filter_entry_error_resp_cookies e es false eh .keyError _ hstat
        (by rw [hcs]; exact cookies_step_some_false cs)
        (by rw [hnone, cookies_step_none])
    | true =>
      exact filter_entry_error_resp_cookies e es true eh .keyError _ hstat
        (by rw [hcs]; exact cookies_step_some_true cs)
        (by rw [hnone, cookies_step_none])

/-- C4 witness: with cookies present on both sides and `exclude_cookies`
false, the request cookies are rewritten as pairs; and the `ex4_entry` failure
follows from the amended theorem. -/
theorem C4_cookies_amended_witness :
    filter_entry ex4w_entry false false false = .ok (some ex4w_fe) ∧
    ex4w_fe.request.cookies = some [("a", "b")] ∧
    filter_entry ex4_entry false false false = .error .keyError := by
  refine ⟨by decide, ?_, ?_⟩
  · have h := (C4_cookies_amended ex4w_entry false false false (by decide)).1 ex4w_fe (by decide)
    simpa using h.1
  · exact (C4_cookies_amended ex4_entry false false false (by decide)).2.1 rfl

/-- C9: an entry whose `postData` MIME type contains "multipart" but whose
request headers hold no `Content-Type` header — or whose first `Content-Type`
value holds no `boundary=` token — makes processing raise an uncaught
`IndexError`: the error propagates out of `filter_entries` and
`process_har_file` with no fallback (the hypotheses on cookies and the static
filter only ensure the multipart branch is reached, since the cookie `del` and
the static skip come first in the loop body). -/
theorem C9_multipart_missing_boundary (e : Entry) (es ec eh : Bool)
    (pd : PostData) (m : String) (hs rcs scs : List NameValue)
    (hstat : (es && matches_static_url e.request.url) = false)
    (hrc : e.request.cookies = some rcs)
    (hsc : e.response.cookies = some scs)
    (hpd : e.request.postData = some pd)
    (hm : pd.mimeType = some m)
    (hmulti : py_contains m "multipart" = true)
    (hh : e.request.headers = some hs)
    (hbad : hs.filter (fun h => py_lower h.name = "content-type") = [] ∨
      ∃ h t, hs.filter (fun h => py_lower h.name = "content-type") = h :: t ∧
        py_contains h.value "boundary=" = false) :
    post_data_step e.request = .error .indexError ∧
    filter_entry e es ec eh = .error .indexError ∧
    filter_entries [e] es ec eh = .error .indexError ∧
    process_har_entries [e] es ec eh = .error .indexError := by
  have hpost : post_data_step e.request = .error .indexError := by
    rcases hbad with hfil | ⟨h, t, hfil, hnb⟩
    · simp [post_data_step, hpd, hm, hmulti, hh, hfil, ok_bind, error_bind]
    · have hlen : (py_split h.value "boundary=").length = 1 := by
        have := hnb
        rw [py_contains] at this
        simpa using this
      have hget : (py_split h.value "boundary=")[1]? = none :=
        List.getElem?_eq_none (by omega)
      simp [post_data_step, hpd, hm, hmulti, hh, hfil, hget, ok_bind, error_bind]
  have hok1 : cookies_step e.request.cookies ec = .ok (if ec then none
      else some (rcs.map (fun c => (c.name, c.value)))) := by
    rw [hrc]; cases ec <;> rfl
  have hok2 : cookies_step e.response.cookies ec = .ok (if ec then none
      else some (scs.map (fun c => (c.name, c.value)))) := by
    rw [hsc]; cases ec <;> rfl
  have hfe : filter_entry e es ec eh = .error .indexError :=
    filter_entry_error_post e es ec eh .indexError _ _ hstat hok1 hok2 hpost
  have hfes : filter_entries [e] es ec eh = .error .indexError := by
    rw [filter_entries, filter_entries_go, hfe]
    rfl
  exact ⟨hpost, hfe, hfes, process_error_of_filter [e] es ec eh .indexError hfes⟩

/-- C9 witness: a concrete multipart entry with no `Content-Type` request
header fails with `IndexError` through the whole pipeline. -/
theorem C9_multipart_missing_boundary_witness :
    post_data_step ex9_entry.request = .error .indexError ∧
    filter_entry ex9_entry false false false = .error .indexError ∧
    filter_entries [ex9_entry] false false false = .error .indexError ∧
    process_har_entries [ex9_entry] false false false = .error .indexError :=
  C9_multipart_missing_boundary ex9_entry false false false
    { mimeType := some "multipart/form-data", text := some "" }
    "multipart/form-data" [⟨"Accept", "x"⟩] [] []
    (by decide) rfl rfl rfl rfl (by decide) rfl (Or.inl (by decide))

/-- C6: `decode_data` is total: whenever the base64-then-UTF-8 attempt
succeeds it returns the decoded string (so the base64 encoding of "hello"
decodes to the literal string "hello"), and whenever the attempt fails it
returns the URL-unescaped original text exactly. -/
theorem C6_decode_data_fallback :
    (∀ s t, b64_then_utf8 s = .ok t → decode_data s = t) ∧
    (∀ s err, b64_then_utf8 s = .error err → decode_data s = unquote s) ∧
    decode_data "aGVsbG8=" = "hello" ∧
    b64encode (utf8_encode "hello") = "aGVsbG8=" ∧
    b64_then_utf8 "hello world!" = .error .binasciiError ∧
    decode_data "hello world!" = unquote "hello world!" := by
  refine ⟨?_, ?_, by decide, by decide, by decide, by decide⟩
  · intro s t h
    rw [decode_data, h]
  · intro s err h
    rw [decode_data, h]

/-- C6 witness: the two branch laws applied at concrete inputs. -/
theorem C6_decode_data_fallback_witness :
    b64_then_utf8 "aGVsbG8=" = .ok "hello" ∧ decode_data "aGVsbG8=" = "hello" ∧
    b64_then_utf8 "a" = .error .binasciiError ∧ decode_data "a" = unquote "a" :=
  ⟨by decide, C6_decode_data_fallback.1 "aGVsbG8=" "hello" (by decide),
   by decide, C6_decode_data_fallback.2.1 "a" .binasciiError (by decide)⟩

/-- C7 counterexample: a multipart part whose value itself holds a blank-line
separator.  The text following the first blank-line separator is
`a\r\n\r\nb`, a body clearly follows the headers block, yet the parser yields
value `null` because the segment does not split into exactly two blocks —
refuting the claimed value rule. -/
theorem C7_multipart_counterexample :
    parse_multipart ex7_cx_data "XYZ" = .ok [("f", none)] ∧
    (Except.ok [("f", (none : Option String))] : Except PyErr (List (String × Option String))) ≠
      .ok [("f", some "a\r\n\r\nb")] :=
  ⟨by decide, by decide⟩

/-- C7 (amended): the body is split on `--{boundary}`; stripped segments that
are empty or the bare final `--` are dropped; for each kept segment, in order,
the part name is the text after the first `; name="` marker of the
pre-blank-line block with its final character removed (`IndexError` when the
marker is absent), and the part value is the text after the blank-line
separator when the segment splits into exactly two blocks on `\r\n\r\n` —
`null` otherwise (zero or two-plus separators), not merely when no body
follows. -/
theorem C7_multipart_amended :
    (∀ data boundary ps, parse_multipart data boundary = .ok ps →
      ps.length = (((py_split data ("--" ++ boundary)).map py_strip).filter
        (fun p => p ≠ "" && p ≠ "--")).length ∧
      ∀ k seg, (((py_split data ("--" ++ boundary)).map py_strip).filter
          (fun p => p ≠ "" && p ≠ "--")).get? k = some seg →
        ∃ nm, (py_split ((py_split seg "\r\n\r\n").headD "") "; name=\"").get? 1 = some nm ∧
          ps.get? k = some (py_drop_last nm,
            match py_split seg "\r\n\r\n" with
            | [_, v] => some v
            | _ => none)) ∧
    parse_multipart ex7_data "XYZ" =
      .ok [("field1", some "value1"), ("field2", some "value2")] := by
  constructor
  · intro data boundary ps h
    simp only [parse_multipart] at h
    obtain ⟨hlen, hget⟩ := mapME_ok_get _ _ ps h
    refine ⟨hlen, fun k seg hk => ?_⟩
    obtain ⟨b, hb, hy⟩ := hget k seg hk
    cases hnm : (py_split ((py_split seg "\r\n\r\n").headD "") "; name=\"").get? 1 with
    | none =>
      rw [hnm] at hb
      simp at hb
    | some nm =>
      rw [hnm] at hb
      simp only [Except.ok.injEq] at hb
      refine ⟨nm, rfl, ?_⟩
      rw [← hb] at hy
      exact hy
  · decide

/-- C7 witness: the spec's two-part scenario, with the part count equal to the
kept-segment count. -/
theorem C7_multipart_amended_witness :
    parse_multipart ex7_data "XYZ" =
      .ok [("field1", some "value1"), ("field2", some "value2")] ∧
    ([("field1", some "value1"), ("field2", some "value2")] :
        List (String × Option String)).length =
      (((py_split ex7_data ("--" ++ "XYZ")).map py_strip).filter
        (fun p => p ≠ "" && p ≠ "--")).length := by
  refine ⟨by decide, ?_⟩
  exact (C7_multipart_amended.1 ex7_data "XYZ" _ (by decide)).1

/-- C8: when `exclude_static` is enabled, every entry present in the output
has a URL whose query-stripped form matches no static extension; concretely,
the `https://x.com/app.js?v=2` entry is dropped entirely and the following
kept entry is renumbered from 1 with no gap. -/
theorem C8_static_excluded :
    (∀ (entries : List Entry) (ec eh : Bool) (out : HarOutput),
      process_har_entries entries true ec eh = .ok out →
      ∀ kv ∈ out.entries, matches_static_url kv.2.request.url = false) ∧
    (process_har_entries [ex8_js, ex8_page] true false false = .ok ex8_out ∧
      ex8_out.entries.map Prod.fst = [1] ∧
      ex8_out.entries.map (fun kv => kv.2.request.url) = ["https://x.com/page"] ∧
      matches_static_url ex8_js.request.url = true) := by
  constructor
  · intro entries ec eh out hp kv hkv
    obtain ⟨fl, hf, hout⟩ := (process_ok_iff entries true ec eh out).mp hp
    have hshape := process_entry_shape entries true ec eh fl out hf hp
    obtain ⟨fe, ⟨k0, hk0⟩, hkv2⟩ := hshape kv hkv
    have hurl : kv.2.request.url = fe.request.url := by
      rw [hkv2]
      exact dedup_entry_url _ _ ec fe
    obtain ⟨-, hmem⟩ := filter_entries_spec entries true ec eh fl hf
    obtain ⟨e, -, hfe⟩ := hmem (k0, fe) hk0
    obtain ⟨hcond, rc, sc, post, -, -, -, hfeq⟩ :=
      (filter_entry_ok_some_iff e true ec eh fe).mp hfe
    have : fe.request.url = e.request.url := by rw [hfeq]; rfl
    rw [hurl, this]
    simpa using hcond
  · exact ⟨by decide, by decide, by decide, by decide⟩

/-- C8 witness: the general clause applied to the concrete two-entry input. -/
theorem C8_static_excluded_witness :
    process_har_entries [ex8_js, ex8_page] true false false = .ok ex8_out ∧
    (∀ kv ∈ ex8_out.entries, matches_static_url kv.2.request.url = false) :=
  ⟨by decide, C8_static_excluded.1 [ex8_js, ex8_page] false false ex8_out (by decide)⟩

/-- C5: the output's entry keys are exactly the consecutive integers `1..N`
where `N` is the number of entries kept by the filter; the kept entries carry
strictly increasing original indices (no gaps in numbering, original relative
order preserved), each being the successful image of the source entry at its
original index. -/
theorem C5_dense_renumbering (entries : List Entry) (es ec eh : Bool)
    (fl : List (Nat × FEntry)) (out : HarOutput)
    (hf : filter_entries entries es ec eh = .ok fl)
    (hp : process_har_entries entries es ec eh = .ok out) :
    out.entries.map Prod.fst = List.range' 1 fl.length ∧
    List.Pairwise (fun a b => a.1 < b.1) fl ∧
    (∀ kv ∈ fl, ∃ e, entries.get? kv.1 = some e ∧
      filter_entry e es ec eh = .ok (some kv.2)) ∧
    out.entries.map (fun kv => kv.2.request.url) = fl.map (fun kv => kv.2.request.url) := by
  obtain ⟨fl', hf', hout⟩ := (process_ok_iff entries es ec eh out).mp hp
  rw [hf] at hf'
  obtain rfl : fl = fl' := by simpa using hf'
  obtain ⟨hpw, hmem⟩ := filter_entries_spec entries es ec eh fl hf
  subst hout
  refine ⟨?_, hpw, hmem, ?_⟩
  · show (renumber _).map Prod.fst = _
    rw [renumber_map_fst, List.length_map]
  · show (renumber _).map (fun kv => kv.2.request.url) = _
    rw [renumber_map_snd_fun (fun me => me.request.url), List.map_map]
    refine List.map_congr_left (fun kv _ => ?_)
    simp only [Function.comp]
    exact dedup_entry_url _ _ ec kv.2

/-- C5 witness: with the static entry dropped, the single kept entry receives
ordinal 1. -/
theorem C5_dense_renumbering_witness :
    filter_entries [ex8_js, ex8_page] true false false = .ok ex5_fl ∧
    process_har_entries [ex8_js, ex8_page] true false false = .ok ex8_out ∧
    ex8_out.entries.map Prod.fst = List.range' 1 ex5_fl.length :=
  ⟨by decide, by decide,
    (C5_dense_renumbering [ex8_js, ex8_page] true false false ex5_fl ex8_out
      (by decide) (by decide)).1⟩

/-- C2: after deduplication, every element of every output header (resp.
cookie) list is a literal `{name: value}` pair or an integer reference that
resolves to a key of `header_dict` (resp. `cookie_dict`), and both tables are
the ones computed from the pre-substitution filtered entries — the table is
complete before any substitution occurs. -/
theorem C2_references_resolve (entries : List Entry) (es ec eh : Bool)
    (fl : List (Nat × FEntry)) (out : HarOutput)
    (hf : filter_entries entries es ec eh = .ok fl)
    (hp : process_har_entries entries es ec eh = .ok out) :
    out.header_dict = create_dict fl .headers false ∧
    out.cookie_dict = (if ec then none else some (create_dict fl .cookies ec)) ∧
    ∀ kv ∈ out.entries,
      (∀ el ∈ (kv.2.request.headers.getD [] ++ kv.2.response.headers.getD []),
        (∃ n v, el = HCElem.inline n v) ∨
          ∃ i p, el = HCElem.ref i ∧ (i, p) ∈ out.header_dict) ∧
      (∀ el ∈ (kv.2.request.cookies.getD [] ++ kv.2.response.cookies.getD []),
        (∃ n v, el = HCElem.inline n v) ∨
          ∃ i p, el = HCElem.ref i ∧ (i, p) ∈ out.cookie_dict.getD []) := by
  obtain ⟨fl', hf', hout⟩ := (process_ok_iff entries es ec eh out).mp hp
  rw [hf] at hf'
  obtain rfl : fl = fl' := by simpa using hf'
  have hshape := process_entry_shape entries es ec eh fl out hf hp
  refine ⟨by rw [hout]; rfl, by rw [hout]; rfl, fun kv hkv => ?_⟩
  obtain ⟨fe, -, hkv2⟩ := hshape kv hkv
  have hhd : out.header_dict = create_dict fl .headers false := by rw [hout]; rfl
  have hcd : out.cookie_dict = (if ec then none else some (create_dict fl .cookies ec)) := by
    rw [hout]; rfl
  constructor
  · intro el hel
    obtain ⟨h1, h2⟩ := dedup_entry_headers (create_dict fl .headers false)
      (create_dict fl .cookies ec) ec fe
    rw [hkv2, h1, h2] at hel
    simp only [Option.getD_some, ← List.map_append] at hel
    rw [hhd]
    exact subst_list_elem _ _ el hel
  · intro el hel
    cases ec with
    | true =>
      rw [hkv2] at hel
      show _ ∨ ∃ i p, el = HCElem.ref i ∧ (i, p) ∈ out.cookie_dict.getD []
      refine Or.inl ?_
      rw [show dedup_entry (create_dict fl .headers false) (create_dict fl .cookies true)
          true fe = dedup_headers (create_dict fl .headers false) fe from rfl] at hel
      rw [show (dedup_headers (create_dict fl .headers false) fe).request.cookies =
          fe.request.cookies.map (fun l => l.map inline_of) from rfl,
        show (dedup_headers (create_dict fl .headers false) fe).response.cookies =
          fe.response.cookies.map (fun l => l.map inline_of) from rfl,
        getD_map_map, getD_map_map, ← List.map_append] at hel
      exact inline_list_elem _ el hel
    | false =>
      rw [hkv2] at hel
      rw [show dedup_entry (create_dict fl .headers false) (create_dict fl .cookies false)
          false fe = dedup_both (create_dict fl .headers false)
            (create_dict fl .cookies false) fe from rfl] at hel
      rw [show (dedup_both (create_dict fl .headers false) (create_dict fl .cookies false)
            fe).request.cookies =
          some ((fe.request.cookies.getD []).map
            (fun p => subst_pair (create_dict fl .cookies false) p)) from rfl,
        show (dedup_both (create_dict fl .headers false) (create_dict fl .cookies false)
            fe).response.cookies =
          some ((fe.response.cookies.getD []).map
            (fun p => subst_pair (create_dict fl .cookies false) p)) from rfl] at hel
      simp only [Option.getD_some, ← List.map_append] at hel
      rw [hcd]
      exact subst_list_elem _ _ el hel

/-- C2 witness: the concrete single-entry pipeline, with the output table
equal to the one computed on the filtered entries. -/
theorem C2_references_resolve_witness :
    filter_entries [ex1_entry] false false false = .ok ex1_fl ∧
    process_har_entries [ex1_entry] false false false = .ok ex1_out ∧
    ex1_out.header_dict = create_dict ex1_fl .headers false :=
  ⟨by decide, by decide,
    (C2_references_resolve [ex1_entry] false false false ex1_fl ex1_out
      (by decide) (by decide)).1⟩

/-- C3: a `(name, value)` pair is assigned an ID in the table if and only if
its occurrence count across all filtered entries' request-plus-response lists
under the target key exceeds 2; a pair occurring exactly twice gets no ID, so
substitution leaves it inline — and the output header lists are exactly the
substituted images of the filtered lists, so every occurrence stays inline. -/
theorem C3_threshold_boundary (n v : String) :
    (∀ (fl : List (Nat × FEntry)) (key : HCKey),
      (∃ i, (i, (n, v)) ∈ create_dict fl key false) ↔
        2 < py_count (collect_pairs fl key false) (n, v)) ∧
    (∀ (entries : List Entry) (es ec eh : Bool) (fl : List (Nat × FEntry)) (out : HarOutput),
      filter_entries entries es ec eh = .ok fl →
      process_har_entries entries es ec eh = .ok out →
      py_count (collect_pairs fl .headers false) (n, v) = 2 →
        subst_pair out.header_dict (n, v) = .inline n v ∧
        entry_headers_substituted out fl out.header_dict) := by
  constructor
  · intro fl key
    exact create_dict_mem_iff fl key false (n, v)
  · intro entries es ec eh fl out hf hp hcount
    obtain ⟨hdict, hsub⟩ := process_headers_substituted entries es ec eh fl out hf hp
    constructor
    · have hnone : pair_id out.header_dict (n, v) = none := by
        rw [pair_id_eq_none_iff]
        intro i hi
        have h2 : 2 < py_count (collect_pairs fl .headers false) (n, v) :=
          (create_dict_mem_iff fl .headers false (n, v)).mp ⟨i, hdict ▸ hi⟩
        omega
      rw [subst_pair, hnone]
    · rw [hdict]
      exact hsub

/-- C3 witness: a pair occurring exactly twice is never tabled and survives
substitution inline. -/
theorem C3_threshold_boundary_witness :
    py_count (collect_pairs ex3_fl .headers false) ("B", "c") = 2 ∧
    ((∃ i, (i, ("B", "c")) ∈ create_dict ex3_fl .headers false) ↔
      2 < py_count (collect_pairs ex3_fl .headers false) ("B", "c")) ∧
    subst_pair ex3_out.header_dict ("B", "c") = .inline "B" "c" :=
  ⟨by decide, (C3_threshold_boundary "B" "c").1 ex3_fl .headers,
    ((C3_threshold_boundary "B" "c").2 [ex3_entry] false false false ex3_fl ex3_out
      (by decide) (by decide) (by decide)).1⟩

/-- C1: a `(name, value)` pair occurring 3 or more times across all kept
entries' request-side and response-side header lists is assigned an integer ID
in `header_dict`; that ID resolves in the table to exactly the original pair
(and no other ID does); substitution maps the pair to that ID, and the output
header lists are exactly the substituted images of the filtered lists, so
every occurrence of the pair is replaced by the ID; no data is lost, since
every output element is either a literal pair or a reference resolving in the
table. -/
theorem C1_table_roundtrip (entries : List Entry) (es ec eh : Bool)
    (fl : List (Nat × FEntry)) (out : HarOutput) (n v : String)
    (hf : filter_entries entries es ec eh = .ok fl)
    (hp : process_har_entries entries es ec eh = .ok out)
    (hcount : 3 ≤ py_count (collect_pairs fl .headers false) (n, v)) :
    ∃ i, (i, (n, v)) ∈ out.header_dict ∧
      (∀ q, (i, q) ∈ out.header_dict → q = (n, v)) ∧
      (∀ j, (j, (n, v)) ∈ out.header_dict → j = i) ∧
      subst_pair out.header_dict (n, v) = .ref i ∧
      entry_headers_substituted out fl out.header_dict ∧
      ∀ kv ∈ out.entries,
        ∀ el ∈ (kv.2.request.headers.getD [] ++ kv.2.response.headers.getD []),
          (∃ a b, el = HCElem.inline a b) ∨
            ∃ j q, el = HCElem.ref j ∧ (j, q) ∈ out.header_dict := by
  obtain ⟨hdict, hsub⟩ := process_headers_substituted entries es ec eh fl out hf hp
  obtain ⟨i, hi⟩ := (create_dict_mem_iff fl .headers false (n, v)).mpr (by omega)
  have hshape := process_entry_shape entries es ec eh fl out hf hp
  refine ⟨i, hdict ▸ hi, ?_, ?_, ?_, by rw [hdict]; exact hsub, ?_⟩
  · intro q hq
    exact (create_dict_id_det fl .headers false i q (n, v) (by rw [hdict] at hq; exact hq) hi).symm ▸ rfl
  · intro j hj
    exact create_dict_pair_det fl .headers false j i (n, v) (by rw [hdict] at hj; exact hj) hi
  · rw [hdict, subst_pair, pair_id_eq_some_of_mem fl .headers false i (n, v) hi]
  · intro kv hkv el hel
    obtain ⟨fe, -, hkv2⟩ := hshape kv hkv
    obtain ⟨h1, h2⟩ := dedup_entry_headers (create_dict fl .headers false)
      (create_dict fl .cookies ec) ec fe
    rw [hkv2, h1, h2] at hel
    simp only [Option.getD_some, ← List.map_append] at hel
    rw [hdict]
    exact subst_list_elem _ _ el hel

/-- C1 witness: the spec scenario — three occurrences of
`("Accept", "application/json")` yield table entry 0, and substitution maps
the pair to reference 0. -/
theorem C1_table_roundtrip_witness :
    filter_entries [ex1_entry] false false false = .ok ex1_fl ∧
    process_har_entries [ex1_entry] false false false = .ok ex1_out ∧
    3 ≤ py_count (collect_pairs ex1_fl .headers false) ("Accept", "application/json") ∧
    ∃ i, (i, ("Accept", "application/json")) ∈ ex1_out.header_dict ∧
      subst_pair ex1_out.header_dict ("Accept", "application/json") = .ref i := by
  refine ⟨by decide, by decide, by decide, ?_⟩
  obtain ⟨i, h1, -, -, h4, -, -⟩ :=
    C1_table_roundtrip [ex1_entry] false false false ex1_fl ex1_out
      "Accept" "application/json" (by decide) (by decide) (by decide)
  exact ⟨i, h1, h4⟩

end Har
